import Mathlib

/-!
Verification development for the payment-request form generator
(sources: src/src/App.tsx and src/components/PaymentForm.tsx).

The development shallowly embeds the JavaScript/TypeScript core:
the Chinese financial-amount transcription function digitUppercase,
the field-cascade reducer handleFormChange, the lookup-selection
handler handlePayeeSelect, and the payee-table save checkAndSavePayee.

JavaScript numbers are IEEE-754 doubles.  They are modelled as exact
rationals (JsRat, an integer numerator over a positive natural
denominator, not necessarily reduced) together with an explicit
round-to-nearest-ties-to-even rounding function roundDouble that is
applied wherever the source performs an arithmetic operation whose
result can be inexact (string-to-number conversion and the two
multiplications in the fractional-digit extraction).  Arithmetic on
values that Math.floor has already made integral is modelled exactly on
Nat; this is faithful for magnitudes below 2^53, which covers every
amount with a printable transcription.  Exponent overflow to Infinity
and subnormal underflow are not modelled (irrelevant at these
magnitudes).  NaN and the two infinities are modelled by the dedicated
constructors of JsNum.
-/

namespace PaymentApp

/-- Exact rational value of a finite JS double: num / den with den positive.
The representation is not reduced; all constructions keep den positive. -/
structure JsRat where
  num : Int
  den : Nat
  deriving DecidableEq, Repr

/-- Number of binary digits of a natural number (0 for 0).
Fuel-based so that it reduces in the kernel. -/
def bitsAux : Nat → Nat → Nat
  | 0, _ => 0
  | fuel+1, n => if n = 0 then 0 else bitsAux fuel (n / 2) + 1

/-- Bit length of a natural number. -/
def bits (n : Nat) : Nat := bitsAux n n

/-- Decides whether a/d < 2^k for naturals a, d (d positive) and an integer k. -/
def ltPow2 (a d : Nat) (k : Int) : Bool :=
  if 0 ≤ k then a < 2 ^ k.toNat * d else a * 2 ^ (-k).toNat < d

/-- Removes factors of two from m, adding them to the exponent, to put a
dyadic value m * 2^e in canonical form.  Fuel-based for kernel reduction. -/
def oddifyAux : Nat → Nat → Int → Nat × Int
  | 0, m, e => (m, e)
  | fuel+1, m, e => if m % 2 = 0 ∧ m ≠ 0 then oddifyAux fuel (m / 2) (e + 1) else (m, e)

/-- Rounds the positive rational a/d (a, d positive) to the nearest IEEE-754
double value (53-bit significand, round half to even, unbounded exponent),
returned as a canonical dyadic JsRat. -/
def roundPosRat (a d : Nat) : JsRat :=
  let ba : Int := bits a
  let bd : Int := bits d
  let e : Int := if ltPow2 a d (ba - bd) then ba - bd - 53 else ba - bd - 52
  let sn : Nat := if 0 ≤ e then a else a * 2 ^ (-e).toNat
  let sd : Nat := if 0 ≤ e then d * 2 ^ e.toNat else d
  let m0 : Nat := sn / sd
  let r : Nat := sn % sd
  let m : Nat :=
    if sd < 2 * r then m0 + 1
    else if 2 * r < sd then m0
    else if m0 % 2 = 0 then m0 else m0 + 1
  let me : Nat × Int := oddifyAux 64 m e
  if 0 ≤ me.2 then ⟨(me.1 : Int) * 2 ^ me.2.toNat, 1⟩ else ⟨(me.1 : Int), 2 ^ (-me.2).toNat⟩

/-- Rounds an exact rational to the nearest IEEE-754 double. -/
def roundDouble (q : JsRat) : JsRat :=
  if q.num = 0 then ⟨0, 1⟩
  else
    let r := roundPosRat q.num.natAbs q.den
    if q.num < 0 then ⟨-r.num, r.den⟩ else r

/-- Floor of the rational value (Math.floor on a finite double is exact). -/
def JsRat.floor (q : JsRat) : Int := q.num.fdiv q.den

/-- A JS number: NaN, an infinity, or a finite double value. -/
inductive JsNum where
  | nan : JsNum
  | posInf : JsNum
  | negInf : JsNum
  | fin : JsRat → JsNum
  deriving DecidableEq, Repr

/-- Math.abs on a JS number. -/
def JsNum.abs : JsNum → JsNum
  | .nan => .nan
  | .posInf => .posInf
  | .negInf => .posInf
  | .fin q => .fin ⟨q.num.natAbs, q.den⟩

/-- The isNaN predicate on a JS number. -/
def JsNum.isNaN : JsNum → Bool
  | .nan => true
  | _ => false

/-! ## String helpers modelling the JS regex replaces used by digitUppercase -/

/-- Model of s.replace with pattern zero-dot (the character 零 followed by any
character), non-global: removes the leftmost such two-character occurrence. -/
def replaceLingDotList : List Char → List Char
  | [] => []
  | '零' :: _ :: rest => rest
  | c :: rest => c :: replaceLingDotList rest

/-- Whether a whole character list matches the anchored pattern
(零 any)* 零 end-of-string, used by the trailing-zero strip. -/
def zeroTailFull : List Char → Bool
  | ['零'] => true
  | '零' :: _ :: rest => zeroTailFull rest
  | _ => false

/-- Model of p.replace with pattern (零 any)* 零 anchored at the end,
non-global: deletes the leftmost suffix match. -/
def replaceZeroTailList : List Char → List Char
  | [] => []
  | c :: rest => if zeroTailFull (c :: rest) then [] else c :: replaceZeroTailList rest

/-- Length of the greedy match of (零 any)* 零元 anchored at the start of the
list, if any (regex backtracking prefers the longest pair run). -/
def matchZeroYuanLen : List Char → Option Nat
  | '零' :: c :: rest =>
    match matchZeroYuanLen rest with
    | some n => some (n + 2)
    | none => if c = '元' then some 2 else none
  | _ => none

/-- Model of s.replace with pattern (零 any)* 零元, non-global: the leftmost
(greedy) match is replaced by the single character 元. -/
def replaceZeroYuanList : List Char → List Char
  | [] => []
  | c :: rest =>
    match matchZeroYuanLen (c :: rest) with
    | some n => '元' :: List.drop n (c :: rest)
    | none => c :: replaceZeroYuanList rest

/-- Model of s.replace with pattern (零 any)+ global: every maximal run of
零-headed pairs is replaced by a single 零.  The Boolean argument is true
while consuming the remaining pairs of a run already begun. -/
def zeroRunScan : Bool → List Char → List Char
  | _, [] => []
  | true, '零' :: _ :: rest => zeroRunScan true rest
  | true, c :: rest => c :: zeroRunScan false rest
  | false, '零' :: _ :: rest => '零' :: zeroRunScan true rest
  | false, c :: rest => c :: zeroRunScan false rest

/-- String version of replaceLingDotList. -/
def strReplaceLingDot (s : String) : String := String.mk (replaceLingDotList s.data)

/-- String version of replaceZeroTailList. -/
def strReplaceZeroTail (s : String) : String := String.mk (replaceZeroTailList s.data)

/-- String version of replaceZeroYuanList. -/
def strReplaceZeroYuan (s : String) : String := String.mk (replaceZeroYuanList s.data)

/-- String version of zeroRunScan started outside a run. -/
def strReplaceZeroRuns (s : String) : String := String.mk (zeroRunScan false s.data)

/-! ## JS string-to-number conversion

Modelled grammar: optional whitespace, optional sign, then either
Infinity or a decimal literal (integer digits, optional fraction,
optional decimal exponent).  JS forms not modelled: hexadecimal, octal
and binary literals, which Number accepts; strings in those forms are
outside the scope of this embedding. -/

/-- JS whitespace characters recognised by trimming and by the numeric
parsers (the common subset: space, tab, line feed, carriage return,
vertical tab, form feed, no-break space, BOM). -/
def isJsSpace (c : Char) : Bool :=
  c = ' ' ∨ c = '\t' ∨ c = '\n' ∨ c = '\r' ∨ c = '\x0b' ∨ c = '\x0c' ∨
  c = ' ' ∨ c = '﻿'

/-- Model of the JS String.prototype.trim method. -/
def jsTrim (s : String) : String :=
  String.mk (((s.data.dropWhile isJsSpace).reverse.dropWhile isJsSpace).reverse)

/-- Numeric value of a list of decimal digit characters. -/
def digitsVal (ds : List Char) : Nat :=
  ds.foldl (fun a c => a * 10 + (c.toNat - 48)) 0

/-- Parses a decimal significand prefix (digits, optionally a dot and more
digits); returns its exact rational value and the remaining characters,
or none if no digit is present. -/
def parseDecCore (l : List Char) : Option (JsRat × List Char) :=
  let ip := l.takeWhile Char.isDigit
  let l1 := l.dropWhile Char.isDigit
  match l1 with
  | '.' :: l2 =>
    let fp := l2.takeWhile Char.isDigit
    let l3 := l2.dropWhile Char.isDigit
    if ip = [] ∧ fp = [] then none
    else some (⟨(digitsVal ip * 10 ^ fp.length + digitsVal fp : Nat), 10 ^ fp.length⟩, l3)
  | _ => if ip = [] then none else some (⟨(digitsVal ip : Nat), 1⟩, l1)

/-- Parses an optional exponent part e or E, optional sign, digits; if the
digits are missing nothing is consumed (so Number rejects the string while
parseFloat keeps only the significand, as in JS). -/
def parseExpPart (l : List Char) : Int × List Char :=
  match l with
  | 'e' :: rest | 'E' :: rest =>
    let (neg, r1) : Bool × List Char :=
      match rest with
      | '-' :: r => (true, r)
      | '+' :: r => (false, r)
      | r => (false, r)
    let ds := r1.takeWhile Char.isDigit
    if ds = [] then (0, l)
    else ((if neg then -(digitsVal ds : Int) else (digitsVal ds : Int)), r1.dropWhile Char.isDigit)
  | _ => (0, l)

/-- Parses an optional leading sign; returns whether it was a minus. -/
def parseSign : List Char → Bool × List Char
  | '-' :: rest => (true, rest)
  | '+' :: rest => (false, rest)
  | l => (false, l)

/-- Parses a JS numeric literal prefix (sign, then Infinity or a decimal
literal with optional exponent); the finite result is the correctly rounded
double of the exact decimal value.  Returns the value and the remainder. -/
def parseNumPrefix (l : List Char) : Option (JsNum × List Char) :=
  let (neg, l1) := parseSign l
  if l1.take 8 = "Infinity".data then
    some ((if neg then .negInf else .posInf), l1.drop 8)
  else
    match parseDecCore l1 with
    | none => none
    | some (q, l2) =>
      let (ex, l3) := parseExpPart l2
      let qe : JsRat := if 0 ≤ ex then ⟨q.num * 10 ^ ex.toNat, q.den⟩ else ⟨q.num, q.den * 10 ^ (-ex).toNat⟩
      let qs : JsRat := if neg then ⟨-qe.num, qe.den⟩ else qe
      some (.fin (roundDouble qs), l3)

/-- Model of the JS Number conversion on strings: trimmed empty input is 0;
otherwise the whole trimmed string must be a numeric literal, else NaN. -/
def jsNumber (s : String) : JsNum :=
  let t := ((s.data.dropWhile isJsSpace).reverse.dropWhile isJsSpace).reverse
  if t = [] then .fin ⟨0, 1⟩
  else
    match parseNumPrefix t with
    | some (v, []) => v
    | _ => .nan

/-- Model of the JS parseFloat function: longest numeric-literal prefix after
leading whitespace; NaN when there is none. -/
def jsParseFloat (s : String) : JsNum :=
  match parseNumPrefix (s.data.dropWhile isJsSpace) with
  | some (v, _) => v
  | none => .nan

/-! ## The transcription function digitUppercase (source: App.tsx lines 8 to 34) -/

/-- The digit characters of the source: digit[0] .. digit[9]. -/
def digit : List String := ["零", "壹", "贰", "叁", "肆", "伍", "陆", "柒", "捌", "玖"]

/-- The sub-unit suffixes of the source: fraction[0], fraction[1]. -/
def fraction : List String := ["角", "分"]

/-- The group-unit names of the source: unit[0]. -/
def unit0 : List String := ["元", "万", "亿"]

/-- The in-group positional unit names of the source: unit[1]. -/
def unit1 : List String := ["", "拾", "佰", "仟"]

/-- JS array indexing digit[i] followed by string concatenation: an index of
NaN (none) reads undefined, which concatenation renders as that word. -/
def lookupDigit : Option Nat → String
  | some k => digit.getD k "undefined"
  | none => "undefined"

/-- The index Math.floor(num * 10 * Math.pow(10, i)) % 10 of the fractional
part, with each multiplication rounded to double precision; none models a
NaN index (NaN or infinite num). -/
def fracDigitIdx (num : JsNum) (i : Nat) : Option Nat :=
  match num with
  | .fin q =>
    let t := roundDouble ⟨q.num * 10, q.den⟩
    let u := roundDouble ⟨t.num * 10 ^ i, t.den⟩
    some (u.floor.toNat % 10)
  | _ => none

/-- The fractional-part loop of digitUppercase: for i over fraction,
append (digit[...] + fraction[i]).replace of the zero-dot pattern. -/
def fracPart (num : JsNum) : String :=
  String.join ((List.range fraction.length).map fun i =>
    strReplaceLingDot (lookupDigit (fracDigitIdx num i) ++ fraction.getD i "undefined"))

/-- State of the integer-part loops: the floored num is either Infinity or an
exact natural number (faithful below 2^53). -/
inductive JsFloorNum where
  | inf : JsFloorNum
  | val : Nat → JsFloorNum
  deriving DecidableEq, Repr

/-- The JS test num > 0 (true for Infinity). -/
def JsFloorNum.isPos : JsFloorNum → Bool
  | .inf => true
  | .val n => decide (0 < n)

/-- The JS index num % 10 (NaN, i.e. none, for Infinity). -/
def JsFloorNum.mod10 : JsFloorNum → Option Nat
  | .inf => none
  | .val n => some (n % 10)

/-- The JS update num = Math.floor(num / 10). -/
def JsFloorNum.div10 : JsFloorNum → JsFloorNum
  | .inf => .inf
  | .val n => .val (n / 10)

/-- The inner loop of digitUppercase: for j over unit[1] while num > 0,
prepend digit[num % 10] + unit[1][j] to p and divide num by 10. -/
def groupLoop : List String → JsFloorNum → String → JsFloorNum × String
  | [], num, p => (num, p)
  | u :: us, num, p =>
    if num.isPos then groupLoop us num.div10 (lookupDigit num.mod10 ++ u ++ p)
    else (num, p)

/-- The outer loop of digitUppercase: for i over unit[0] while num > 0,
prepend the cleaned group string and unit[0][i] to s. -/
def outerLoop : List String → JsFloorNum → String → String
  | [], _, s => s
  | u :: us, num, s =>
    if num.isPos then
      let np := groupLoop unit1 num ""
      let p1 := strReplaceZeroTail np.2
      let p2 := if p1 = "" then "零" else p1
      outerLoop us np.1 (p2 ++ u ++ s)
    else s

/-- The integer part of digitUppercase after num = Math.floor(num): the loop
runs only when num > 0, which is false for NaN and negative infinity. -/
def intPart (num : JsNum) (s : String) : String :=
  match num with
  | .fin q => outerLoop unit0 (.val q.floor.toNat) s
  | .posInf => outerLoop unit0 .inf s
  | _ => s

/-- The body of digitUppercase on the converted number Number(n). -/
def digitUppercaseOn (num0 : JsNum) : String :=
  let num := num0.abs
  let s := fracPart num
  let s := if s = "" then "整" else s
  let s := intPart num s
  let s := strReplaceZeroYuan s
  let s := strReplaceZeroRuns s
  if s = "整" then "零元整" else s

/-- A value passed to digitUppercase: a JS number or a string. -/
inductive JsValue where
  | num : JsNum → JsValue
  | str : String → JsValue
  deriving DecidableEq, Repr

/-- The conversion Number(n) at the head of digitUppercase. -/
def jsToNumber : JsValue → JsNum
  | .num v => v
  | .str s => jsNumber s

/-- The transcription function digitUppercase of App.tsx (exposed in the
specification as transcribeAmount). -/
def digitUppercase (n : JsValue) : String := digitUppercaseOn (jsToNumber n)

/-! ## Data model (source: PaymentForm.tsx) -/

/-- The PaymentFormData record of PaymentForm.tsx: one payment-request
document instance, every field plain text. -/
structure PaymentFormData where
  dept : String
  year : String
  month : String
  day : String
  serial : String
  payee : String
  bankAccount : String
  bankName : String
  amountChinese : String
  reason : String
  attachments : String
  amountNumeric : String
  leader : String
  financeManager : String
  deptManager : String
  operator : String
  accountant : String
  bookkeeper : String
  reviewer : String
  cashier : String
  maker : String
  receiver : String
  deriving DecidableEq, Repr

/-- The initialFormData constant of PaymentForm.tsx: every field empty. -/
def initialFormData : PaymentFormData :=
  ⟨"", "", "", "", "", "", "", "", "", "", "", "", "", "", "", "", "", "", "", "", "", ""⟩

/-- The keys of PaymentFormData (the keyof PaymentFormData type). -/
inductive FieldKey where
  | dept | year | month | day | serial | payee | bankAccount | bankName
  | amountChinese | reason | attachments | amountNumeric | leader
  | financeManager | deptManager | operator | accountant | bookkeeper
  | reviewer | cashier | maker | receiver
  deriving DecidableEq, Repr

/-- The computed-key record update of the source: newData with key set. -/
def setField (r : PaymentFormData) (key : FieldKey) (value : String) : PaymentFormData :=
  match key with
  | .dept => { r with dept := value }
  | .year => { r with year := value }
  | .month => { r with month := value }
  | .day => { r with day := value }
  | .serial => { r with serial := value }
  | .payee => { r with payee := value }
  | .bankAccount => { r with bankAccount := value }
  | .bankName => { r with bankName := value }
  | .amountChinese => { r with amountChinese := value }
  | .reason => { r with reason := value }
  | .attachments => { r with attachments := value }
  | .amountNumeric => { r with amountNumeric := value }
  | .leader => { r with leader := value }
  | .financeManager => { r with financeManager := value }
  | .deptManager => { r with deptManager := value }
  | .operator => { r with operator := value }
  | .accountant => { r with accountant := value }
  | .bookkeeper => { r with bookkeeper := value }
  | .reviewer => { r with reviewer := value }
  | .cashier => { r with cashier := value }
  | .maker => { r with maker := value }
  | .receiver => { r with receiver := value }

/-- The current date as read from new Date(): getFullYear, the zero-based
getMonth, and getDate. -/
structure JsDate where
  fullYear : Nat
  monthIndex : Nat
  date : Nat
  deriving DecidableEq, Repr

/-- A PayeeInfo lookup entry of PaymentForm.tsx.  The source names the three
fields with the Chinese words for payee name, bank account and bank name;
those characters are not valid Lean identifiers, so the fields are renamed
here: payeeName, bankAccount, bankName, in the source order. -/
structure PayeeInfo where
  payeeName : String
  bankAccount : String
  bankName : String
  deriving DecidableEq, Repr

/-! ## Field cascade (source: App.tsx lines 247 to 306) -/

/-- The handleFormChange reducer of App.tsx (exposed in the specification as
applyFieldChange) for one form, with the current date passed explicitly:
writes the field, recomputes or clears the amount in words when the numeric
amount changes, autofills the date or clears the dependent fields when the
payee changes. -/
def handleFormChange (now : JsDate) (currentForm : PaymentFormData)
    (key : FieldKey) (value : String) : PaymentFormData :=
  let newData := setField currentForm key value
  let newData :=
    if key = FieldKey.amountNumeric then
      let numVal := jsParseFloat value
      if numVal.isNaN = false ∧ value ≠ "" then
        { newData with amountChinese := digitUppercase (JsValue.num numVal) }
      else if value = "" then { newData with amountChinese := "" }
      else newData
    else newData
  if key = FieldKey.payee then
    if value ≠ "" ∧ jsTrim value ≠ "" then
      if newData.year = "" ∧ newData.month = "" ∧ newData.day = "" then
        { newData with
          year := toString now.fullYear
          month := toString (now.monthIndex + 1)
          day := toString now.date }
      else newData
    else
      { newData with
        bankAccount := "", bankName := "", year := "", month := "", day := "",
        amountChinese := "", amountNumeric := "", reason := "", attachments := "" }
  else newData

/-- The handlePayeeSelect handler of App.tsx (exposed in the specification as
applySelectPayee) for one form: overwrites payee, bank account and bank name
from the lookup entry (empty JS strings are falsy, so the or-empty defaults
of the source keep empty fields empty) and sets the three date fields to the
current date. -/
def handlePayeeSelect (now : JsDate) (r : PaymentFormData) (payee : PayeeInfo) :
    PaymentFormData :=
  { r with
    payee := if payee.payeeName = "" then "" else payee.payeeName
    bankAccount := if payee.bankAccount = "" then "" else payee.bankAccount
    bankName := if payee.bankName = "" then "" else payee.bankName
    year := toString now.fullYear
    month := toString (now.monthIndex + 1)
    day := toString now.date }

/-- The checkAndSavePayee routine of App.tsx: when payee, bank account and
bank name are all non-empty and no lookup entry shares the payee name and
bank account, append a new entry; returns the new table and whether an
append happened. -/
def checkAndSavePayee (payeeDb : List PayeeInfo) (formData : PaymentFormData) :
    List PayeeInfo × Bool :=
  if formData.payee ≠ "" ∧ formData.bankAccount ≠ "" ∧ formData.bankName ≠ "" then
    let exists0 := payeeDb.any fun p =>
      p.payeeName == formData.payee && p.bankAccount == formData.bankAccount
    if exists0 then (payeeDb, false)
    else (payeeDb ++ [⟨formData.payee, formData.bankAccount, formData.bankName⟩], true)
  else (payeeDb, false)

/-! ## Reachability and the amount invariant (claim C1) -/

/-- Records reachable from the all-empty initial record by field edits and
lookup selections, at a fixed current date. -/
inductive Reachable (now : JsDate) : PaymentFormData → Prop
  | init : Reachable now initialFormData
  | fieldChange {r : PaymentFormData} (k : FieldKey) (v : String) :
      Reachable now r → Reachable now (handleFormChange now r k v)
  | payeeSelect {r : PaymentFormData} (p : PayeeInfo) :
      Reachable now r → Reachable now (handlePayeeSelect now r p)

/-- Records reachable as in Reachable but without any direct edit of the
amount-in-words field. -/
inductive ReachableNoWordsEdit (now : JsDate) : PaymentFormData → Prop
  | init : ReachableNoWordsEdit now initialFormData
  | fieldChange {r : PaymentFormData} (k : FieldKey) (v : String) :
      k ≠ FieldKey.amountChinese → ReachableNoWordsEdit now r →
      ReachableNoWordsEdit now (handleFormChange now r k v)
  | payeeSelect {r : PaymentFormData} (p : PayeeInfo) :
      ReachableNoWordsEdit now r → ReachableNoWordsEdit now (handlePayeeSelect now r p)

/-- The C1 invariant: when the numeric amount is a non-empty string that is a
valid number (both the whole-string Number conversion and the prefix
parseFloat conversion read the same finite value), the amount in words is
the transcription of the numeric amount; and an empty numeric amount forces
an empty amount in words. -/
def amountInvariant (r : PaymentFormData) : Prop :=
  (∀ q : JsRat, r.amountNumeric ≠ "" → jsNumber r.amountNumeric = JsNum.fin q →
      jsParseFloat r.amountNumeric = JsNum.fin q →
      r.amountChinese = digitUppercase (JsValue.str r.amountNumeric)) ∧
  (r.amountNumeric = "" → r.amountChinese = "")

/-! ## Helper lemmas -/

/-- Nat.toDigitsCore never empties a non-empty accumulator. -/
theorem toDigitsCore_ne_nil (b : Nat) :
    ∀ (fuel n : Nat) (ds : List Char), ds ≠ [] → Nat.toDigitsCore b fuel n ds ≠ [] := by
  intro fuel
  induction fuel with
  | zero => intro n ds h; simpa [Nat.toDigitsCore] using h
  | succ f ih =>
    intro n ds h
    simp only [Nat.toDigitsCore]
    split
    · simp
    · exact ih _ _ (by simp)

/-- The decimal digit list of a natural number is non-empty. -/
theorem toDigits_ne_nil (n : Nat) : Nat.toDigits 10 n ≠ [] := by
  simp only [Nat.toDigits, Nat.toDigitsCore]
  split
  · simp
  · exact toDigitsCore_ne_nil 10 n (n / 10) _ (by simp)

/-- The decimal string of a natural number is never the empty string. -/
theorem nat_toString_ne_empty (n : Nat) : toString n ≠ "" := by
  intro h
  have hd : (toString n).data = ("" : String).data := congrArg String.data h
  have : Nat.toDigits 10 n = [] := by
    simpa [toString, Nat.repr, List.asString] using hd
  exact toDigits_ne_nil n this

/-- A record keeping the amount fields of another satisfies the amount
invariant whenever the other does. -/
theorem amountInvariant_congr {r s : PaymentFormData}
    (hn : s.amountNumeric = r.amountNumeric) (hc : s.amountChinese = r.amountChinese)
    (h : amountInvariant r) : amountInvariant s := by
  obtain ⟨h1, h2⟩ := h
  constructor
  · intro q hne hnum hpf
    rw [hn] at hne hnum hpf
    rw [hc, hn]
    exact h1 q hne hnum hpf
  · intro he
    rw [hn] at he
    rw [hc]
    exact h2 he

/-! ## Claim C2: behaviour of digitUppercase on non-numeric input -/

/-- C2 counterexample: the claim says a non-numeric input is coerced to a
zero/NaN-safe output with no garbage placeholder text in digit positions,
but the input abc (which converts to NaN) produces the string
undefined角undefined分, with the word undefined in both digit positions,
and not the zero transcription. -/
theorem C2_counterexample :
    jsNumber "abc" = JsNum.nan ∧
    digitUppercase (JsValue.str "abc") = "undefined角undefined分" ∧
    digitUppercase (JsValue.str "abc") ≠ "零元整" := by decide

/-- C2 amended: for every input string whose Number conversion is NaN,
digitUppercase does not throw but returns the fixed garbage string
undefined角undefined分 (the word undefined standing in each sub-unit digit
position). -/
theorem C2_amended (s : String) (h : jsNumber s = JsNum.nan) :
    digitUppercase (JsValue.str s) = "undefined角undefined分" := by
  show digitUppercaseOn (jsNumber s) = _
  rw [h]
  decide

/-- C2 witness: the amended theorem applied to the concrete input abc. -/
theorem C2_amended_witness :
    digitUppercase (JsValue.str "abc") = "undefined角undefined分" :=
  C2_amended "abc" (by decide)

/-! ## Claim C3: the three integer test values -/

/-- C3: digitUppercase maps the double 0 to 零元整, the double 1005 to
壹仟零伍元整 (one collapsed zero marker), and the double 100000000 to
壹亿元整 (correct group unit at the 10^8 boundary). -/
theorem C3_test_values :
    digitUppercase (JsValue.num (JsNum.fin ⟨0, 1⟩)) = "零元整" ∧
    digitUppercase (JsValue.num (JsNum.fin ⟨1005, 1⟩)) = "壹仟零伍元整" ∧
    digitUppercase (JsValue.num (JsNum.fin ⟨100000000, 1⟩)) = "壹亿元整" := by decide

/-! ## Claim C4: the value 1234.56 -/

/-- C4 counterexample: on the double nearest 1234.56 (the value of the JS
literal 1234.56), digitUppercase returns 壹仟贰佰叁拾肆元伍角伍分, not the
claimed 壹仟贰佰叄拾肆元伍角陆分: the code writes digit three as 叁 (not the
spec variant 叄), and the hundredths digit extracts as 5 (not 6) because the
double product (1234.56 * 10) * 10 equals 123455.99999999999, whose floor
ends in 5. -/
theorem C4_counterexample :
    digitUppercase (JsValue.num (JsNum.fin (roundDouble ⟨123456, 100⟩))) =
      "壹仟贰佰叁拾肆元伍角伍分" ∧
    ("壹仟贰佰叁拾肆元伍角伍分" : String) ≠ "壹仟贰佰叄拾肆元伍角陆分" := by decide

/-- C4 amended: digitUppercase on the double nearest 1234.56 is the
concatenation of the integer part 壹仟贰佰叁拾肆元 (digit three written 叁)
and the fraction 伍角伍分 (tenths digit 5, and hundredths digit also 5
because of the floor-based extraction on doubles), with no 整 suffix. -/
theorem C4_amended :
    digitUppercase (JsValue.num (JsNum.fin (roundDouble ⟨123456, 100⟩))) =
      "壹仟贰佰叁拾肆元" ++ "伍角伍分" := by decide

/-! ## Claim C5: clearing the payee resets the dependent fields -/

/-- C5: for every record and date, setting the payee to the empty string
yields the record with payee, bank account, bank name, the three date
fields, amount in words, amount in digits, reason and attachment count all
empty, and every other field (serial, department and all signature-name
fields) unchanged. -/
theorem C5_clear_payee (now : JsDate) (r : PaymentFormData) :
    handleFormChange now r FieldKey.payee "" =
      { r with payee := "", bankAccount := "", bankName := "", year := "",
               month := "", day := "", amountChinese := "", amountNumeric := "",
               reason := "", attachments := "" } := by
  rfl

/-! ## Claim C6: date autofill on setting the payee -/

/-- C6 counterexample: the claim quantifies over every non-empty new payee
value, but the whitespace-only value (a single space) is non-empty and takes
the clearing branch: on a record whose year is 2024 the call changes the
date fields (clears them) instead of leaving them unmodified. -/
theorem C6_counterexample :
    (" " : String) ≠ "" ∧
    ({ initialFormData with year := "2024" } : PaymentFormData).year ≠ "" ∧
    (handleFormChange ⟨2026, 9, 12⟩ { initialFormData with year := "2024" }
        FieldKey.payee " ").year = "" := by decide

/-- C6 amended: for every record and every new payee value that is non-empty
and non-blank (its JS trim is non-empty), if the three date fields are all
empty the call fills them with the current date as decimal strings (year,
one-based month, day), and if at least one date field is non-empty the call
leaves all three unmodified. -/
theorem C6_amended (now : JsDate) (r : PaymentFormData) (v : String)
    (h1 : v ≠ "") (h2 : jsTrim v ≠ "") :
    ((r.year = "" ∧ r.month = "" ∧ r.day = "") →
      (handleFormChange now r FieldKey.payee v).year = toString now.fullYear ∧
      (handleFormChange now r FieldKey.payee v).month = toString (now.monthIndex + 1) ∧
      (handleFormChange now r FieldKey.payee v).day = toString now.date) ∧
    (¬(r.year = "" ∧ r.month = "" ∧ r.day = "") →
      (handleFormChange now r FieldKey.payee v).year = r.year ∧
      (handleFormChange now r FieldKey.payee v).month = r.month ∧
      (handleFormChange now r FieldKey.payee v).day = r.day) := by
  have hc : v ≠ "" ∧ jsTrim v ≠ "" := ⟨h1, h2⟩
  constructor
  · intro hd
    simp [handleFormChange, setField, hc, hd]
  · intro hd
    simp [handleFormChange, setField, hc, hd]

/-- C6 witness: the amended theorem at a concrete record with a non-empty
year and the non-blank payee value A. -/
theorem C6_amended_witness :
    (¬((({ initialFormData with year := "2024" } : PaymentFormData)).year = "" ∧
        (({ initialFormData with year := "2024" } : PaymentFormData)).month = "" ∧
        (({ initialFormData with year := "2024" } : PaymentFormData)).day = "")) ∧
    (handleFormChange ⟨2026, 9, 12⟩ { initialFormData with year := "2024" }
        FieldKey.payee "A").year = "2024" :=
  ⟨by decide,
   ((C6_amended ⟨2026, 9, 12⟩ { initialFormData with year := "2024" } "A"
      (by decide) (by decide)).2 (by decide)).1⟩

/-! ## Claim C7: lookup selection overwrites payee data and the date -/

/-- C7: for every record, date and lookup entry, handlePayeeSelect overwrites
payee name, bank account and bank name with the values of the entry, and
overwrites the three date fields with the current date unconditionally. -/
theorem C7_select_overwrites (now : JsDate) (r : PaymentFormData) (p : PayeeInfo) :
    (handlePayeeSelect now r p).payee = p.payeeName ∧
    (handlePayeeSelect now r p).bankAccount = p.bankAccount ∧
    (handlePayeeSelect now r p).bankName = p.bankName ∧
    (handlePayeeSelect now r p).year = toString now.fullYear ∧
    (handlePayeeSelect now r p).month = toString (now.monthIndex + 1) ∧
    (handlePayeeSelect now r p).day = toString now.date := by
  refine ⟨?_, ?_, ?_, rfl, rfl, rfl⟩ <;>
    · simp only [handlePayeeSelect]
      split
      · next h => exact h.symm
      · rfl

/-! ## Claim C10: a whitespace-only payee value takes the clearing branch -/

/-- C10: for every record and date, setting the payee to a non-empty but
whitespace-only value writes that value into the payee field and clears bank
account, bank name, the three date fields, amount in words, amount in
digits, reason and attachment count, never populating the date fields. -/
theorem C10_whitespace_clearing (now : JsDate) (r : PaymentFormData) (v : String)
    (_h1 : v ≠ "") (h2 : jsTrim v = "") :
    handleFormChange now r FieldKey.payee v =
      { r with payee := v, bankAccount := "", bankName := "", year := "",
               month := "", day := "", amountChinese := "", amountNumeric := "",
               reason := "", attachments := "" } := by
  simp [handleFormChange, setField, h2]

/-- C10 witness: the theorem at the single-space payee value, on the
all-empty initial record. -/
theorem C10_whitespace_clearing_witness :
    handleFormChange ⟨2026, 9, 12⟩ initialFormData FieldKey.payee " " =
      { initialFormData with
          payee := " ", bankAccount := "", bankName := "", year := "",
          month := "", day := "", amountChinese := "", amountNumeric := "",
          reason := "", attachments := "" } :=
  C10_whitespace_clearing ⟨2026, 9, 12⟩ initialFormData " " (by decide) (by decide)

/-! ## Claim C8: idempotence of the reducer -/

/-- Writing the same field twice is the same as writing it once. -/
theorem setField_idem (r : PaymentFormData) (k : FieldKey) (v : String) :
    setField (setField r k v) k v = setField r k v := by
  cases k <;> rfl

/-- C8: at a fixed current date, applying handleFormChange twice with the
same field and value yields the same record as applying it once. -/
theorem C8_idempotent (now : JsDate) (r : PaymentFormData) (k : FieldKey) (v : String) :
    handleFormChange now (handleFormChange now r k v) k v = handleFormChange now r k v := by
  cases k
  case amountNumeric =>
    by_cases c1 : (jsParseFloat v).isNaN = false ∧ v ≠ ""
    · simp [handleFormChange, setField, c1]
    · by_cases c2 : v = ""
      · subst c2
        simp [handleFormChange, setField, c1]
      · have hA : ¬((jsParseFloat v).isNaN = false) := fun hf => c1 ⟨hf, c2⟩
        simp [handleFormChange, setField, hA, c2]
  case payee =>
    by_cases cp : v ≠ "" ∧ jsTrim v ≠ ""
    · by_cases cd : r.year = "" ∧ r.month = "" ∧ r.day = ""
      · simp [handleFormChange, setField, cp, cd, nat_toString_ne_empty now.fullYear]
      · simp [handleFormChange, setField, cp, cd]
    · simp [handleFormChange, setField, cp]
  all_goals simp [handleFormChange, setField]

/-! ## Claim C9: saving an already-known payee is a no-op on the lookup table -/

/-- C9: when payee, bank account and bank name are all non-empty and the
lookup table already holds an entry with the same payee name and bank
account (the bank name need not match), checkAndSavePayee leaves the table
unchanged. -/
theorem C9_dedup_noop (db : List PayeeInfo) (fd : PaymentFormData)
    (h1 : fd.payee ≠ "" ∧ fd.bankAccount ≠ "" ∧ fd.bankName ≠ "")
    (h2 : ∃ p ∈ db, p.payeeName = fd.payee ∧ p.bankAccount = fd.bankAccount) :
    (checkAndSavePayee db fd).1 = db := by
  obtain ⟨p, hp, hn, hb⟩ := h2
  have hex : (db.any fun p => p.payeeName == fd.payee && p.bankAccount == fd.bankAccount) = true := by
    rw [List.any_eq_true]
    exact ⟨p, hp, by simp [hn, hb]⟩
  simp [checkAndSavePayee, h1, hex]

/-- C9 witness: a concrete table already holding the pair, with a different
bank name in the stored entry. -/
theorem C9_dedup_noop_witness :
    (checkAndSavePayee [⟨"甲公司", "622202", "工行"⟩]
      { initialFormData with payee := "甲公司", bankAccount := "622202",
                             bankName := "建行" }).1 =
      [⟨"甲公司", "622202", "工行"⟩] :=
  C9_dedup_noop [⟨"甲公司", "622202", "工行"⟩]
    { initialFormData with payee := "甲公司", bankAccount := "622202",
                           bankName := "建行" }
    (by decide) ⟨⟨"甲公司", "622202", "工行"⟩, by decide, by decide, by decide⟩

/-! ## Claim C1: the amount invariant over reachable records -/

/-- handlePayeeSelect does not touch the two amount fields. -/
theorem select_amounts_frame (now : JsDate) (r : PaymentFormData) (p : PayeeInfo) :
    (handlePayeeSelect now r p).amountNumeric = r.amountNumeric ∧
    (handlePayeeSelect now r p).amountChinese = r.amountChinese := by
  constructor <;> rfl

/-- A payee edit with a non-blank value does not touch the amount fields. -/
theorem payee_keep_amounts_frame (now : JsDate) (r : PaymentFormData) (v : String)
    (hc : v ≠ "" ∧ jsTrim v ≠ "") :
    (handleFormChange now r FieldKey.payee v).amountNumeric = r.amountNumeric ∧
    (handleFormChange now r FieldKey.payee v).amountChinese = r.amountChinese := by
  by_cases cd : r.year = "" ∧ r.month = "" ∧ r.day = ""
  · constructor <;> simp [handleFormChange, setField, hc, cd]
  · constructor <;> simp [handleFormChange, setField, hc, cd]

/-- An edit of the numeric amount establishes the amount invariant outright,
whatever record it is applied to. -/
theorem amountNumeric_invariant (now : JsDate) (r : PaymentFormData) (v : String) :
    amountInvariant (handleFormChange now r FieldKey.amountNumeric v) := by
  by_cases c1 : (jsParseFloat v).isNaN = false ∧ v ≠ ""
  · have he : handleFormChange now r FieldKey.amountNumeric v =
        { setField r FieldKey.amountNumeric v with
            amountChinese := digitUppercase (JsValue.num (jsParseFloat v)) } := by
      simp [handleFormChange, c1]
    rw [he]
    constructor
    · intro q _ hnum hpf
      have hpn : (setField r FieldKey.amountNumeric v).amountNumeric = v := by
        simp [setField]
      rw [hpn] at hnum hpf ⊢
      show digitUppercase (JsValue.num (jsParseFloat v)) = digitUppercaseOn (jsNumber v)
      rw [hpf, hnum]
      rfl
    · intro hv
      have : v = "" := by simpa [setField] using hv
      exact absurd this c1.2
  · by_cases c2 : v = ""
    · subst c2
      have he : handleFormChange now r FieldKey.amountNumeric "" =
          { setField r FieldKey.amountNumeric "" with amountChinese := "" } := by
        simp [handleFormChange, c1]
      rw [he]
      exact ⟨fun q hne _ _ => absurd rfl hne, fun _ => rfl⟩
    · have hA : ¬((jsParseFloat v).isNaN = false) := fun hf => c1 ⟨hf, c2⟩
      have he : handleFormChange now r FieldKey.amountNumeric v =
          setField r FieldKey.amountNumeric v := by
        simp [handleFormChange, hA, c2]
      rw [he]
      constructor
      · intro q _ _ hpf
        rw [show (setField r FieldKey.amountNumeric v).amountNumeric = v from by
          simp [setField]] at hpf
        rw [hpf] at hA
        exact absurd rfl hA
      · intro hv
        exact absurd (by simpa [setField] using hv) c2

/-- A payee edit with an empty or blank value clears both amount fields and
so establishes the amount invariant outright. -/
theorem payee_clear_invariant (now : JsDate) (r : PaymentFormData) (v : String)
    (hcp : ¬(v ≠ "" ∧ jsTrim v ≠ "")) :
    amountInvariant (handleFormChange now r FieldKey.payee v) := by
  have he : handleFormChange now r FieldKey.payee v =
      { setField r FieldKey.payee v with
          bankAccount := "", bankName := "", year := "", month := "", day := "",
          amountChinese := "", amountNumeric := "", reason := "", attachments := "" } := by
    simp [handleFormChange, hcp]
  rw [he]
  exact ⟨fun q hne _ _ => absurd rfl hne, fun _ => rfl⟩

/-- C1 counterexample: the claimed invariant does not survive a direct edit
of the amount-in-words field.  From the all-empty record, first set the
numeric amount to 5 (words become 伍元整), then set the words field to x:
the resulting record is reachable, its numeric amount 5 is a valid non-empty
number, yet its words x differ from the transcription of 5. -/
theorem C1_counterexample :
    Reachable ⟨2026, 9, 12⟩
      (handleFormChange ⟨2026, 9, 12⟩
        (handleFormChange ⟨2026, 9, 12⟩ initialFormData FieldKey.amountNumeric "5")
        FieldKey.amountChinese "x") ∧
    ¬ amountInvariant
      (handleFormChange ⟨2026, 9, 12⟩
        (handleFormChange ⟨2026, 9, 12⟩ initialFormData FieldKey.amountNumeric "5")
        FieldKey.amountChinese "x") := by
  constructor
  · exact .fieldChange _ _ (.fieldChange _ _ .init)
  · intro h
    have hw := h.1 ⟨5, 1⟩ (by decide) (by decide) (by decide)
    exact absurd hw (by decide)

/-- C1 amended: over every record reachable from the all-empty initial
record by applyFieldChange and applySelectPayee steps in which no step
directly edits the amount-in-words field, the invariant holds: a non-empty
numeric amount that is a valid number (Number and parseFloat both read the
same finite value) forces the words field to be its transcription, and an
empty numeric amount forces an empty words field. -/
theorem C1_amended (now : JsDate) (r : PaymentFormData)
    (h : ReachableNoWordsEdit now r) : amountInvariant r := by
  induction h with
  | init => exact ⟨fun q hne _ _ => absurd rfl hne, fun _ => rfl⟩
  | payeeSelect p _ ih =>
    exact amountInvariant_congr (select_amounts_frame now _ p).1
      (select_amounts_frame now _ p).2 ih
  | fieldChange k v hk _ ih =>
    cases k
    case amountChinese => exact absurd rfl hk
    case amountNumeric => exact amountNumeric_invariant now _ v
    case payee =>
      by_cases cp : v ≠ "" ∧ jsTrim v ≠ ""
      · exact amountInvariant_congr (payee_keep_amounts_frame now _ v cp).1
          (payee_keep_amounts_frame now _ v cp).2 ih
      · exact payee_clear_invariant now _ v cp
    all_goals
      exact amountInvariant_congr (by simp [handleFormChange, setField])
        (by simp [handleFormChange, setField]) ih

/-- C1 witness: the amended theorem at the all-empty initial record. -/
theorem C1_amended_witness : amountInvariant initialFormData :=
  C1_amended ⟨2026, 9, 12⟩ initialFormData ReachableNoWordsEdit.init

end PaymentApp
